import Mathlib

/-!
Verification of the live message fan-out core of a small chat backend
(src/main.py together with src/models.py).

The module-level dictionary connected_clients (chat id to list of
asyncio.Queue), the EventManager static methods register / disconnect /
broadcast, the lifespan shutdown handler, the /events SSE generator and
the /send_message endpoint are embedded as pure functions over an
explicit state.  Each asyncio.Queue object is identified by a unique
natural number (queue ids are allocated by a fresh counter, mirroring
Python object identity); the registry maps each chat id to the list of
queue ids currently subscribed, in insertion order, and a separate
mailbox map records, per queue id, the full ordered trace of items ever
enqueued into that queue.  A mailbox item is either a real payload
(the code enqueues the SSE-formatted string
data colon json dump of the payload; that formatting is an injective
serialization, so the embedding keeps the payload itself) or the close
sentinel, Python None, which we model as Option.none.
-/

namespace ChatApp

/-- The registry underlying connected_clients: an association list from
chat id to the queue ids subscribed to that chat, in Python dict
insertion order.  Keys are unique in every state built by the
operations, as in a Python dict. -/
abbrev Registry := List (Nat × List Nat)

/-- Lookup of a chat id key in the registry, first match, mirroring
Python dict indexing. -/
def lookupRoom : Registry → Nat → Option (List Nat)
  | [], _ => none
  | e :: t, r => if e.1 = r then some e.2 else lookupRoom t r

/-- Replace the queue list stored under an existing chat id key,
mirroring in-place mutation of connected_clients at that key. -/
def setRoom (reg : Registry) (r : Nat) (qs : List Nat) : Registry :=
  reg.map (fun e => if e.1 = r then (r, qs) else e)

/-- The whole mutable state of the event manager: the registry, the
per-queue enqueue traces (the heap of asyncio.Queue objects, indexed by
queue id), and the fresh-id counter for allocating new queues. -/
structure EMState (α : Type) where
  registry : Registry
  mailbox : Nat → List (Option α)
  nextQid : Nat

/-- The initial state: connected_clients starts as an empty dict. -/
def emInit : EMState α :=
  { registry := [], mailbox := fun _ => [], nextQid := 0 }

/-- The queue ids currently subscribed to a chat; an absent key reads as
the empty collection. -/
def roomList (s : EMState α) (r : Nat) : List Nat :=
  (lookupRoom s.registry r).getD []

/-- EventManager.register (src/main.py lines 124-136): if the chat id is
not a key of connected_clients, bind it to a fresh empty list; create a
new queue and append it to the chat's list; return the queue. -/
def register (chatId : Nat) (s : EMState α) : EMState α × Nat :=
  let reg0 := if (lookupRoom s.registry chatId).isSome then s.registry
              else s.registry ++ [(chatId, [])]
  let q := s.nextQid
  let qs := (lookupRoom reg0 chatId).getD []
  ({ registry := setRoom reg0 chatId (qs ++ [q])
     mailbox := fun x => if x = q then [] else s.mailbox x
     nextQid := q + 1 }, q)

/-- EventManager.disconnect (src/main.py lines 138-145): if the chat id
is a key and the queue is in its list, remove the first occurrence of
the queue from the list (Python list.remove); otherwise do nothing. -/
def disconnect (q chatId : Nat) (s : EMState α) : EMState α :=
  match lookupRoom s.registry chatId with
  | none => s
  | some qs =>
    if q ∈ qs then { s with registry := setRoom s.registry chatId (qs.erase q) }
    else s

/-- EventManager.broadcast (src/main.py lines 147-160): if the chat id
is not a key of connected_clients, return immediately; otherwise put the
formatted message into every queue in that chat's list, in list order
(a queue occurring k times receives k copies). -/
def broadcast (p : α) (chatId : Nat) (s : EMState α) : EMState α :=
  match lookupRoom s.registry chatId with
  | none => s
  | some qs =>
    { s with mailbox := fun x => s.mailbox x ++ List.replicate (qs.count x) (some p) }

/-- A sequence of broadcast calls for one chat id, issued in list
order. -/
def broadcastAll (ps : List α) (chatId : Nat) (s : EMState α) : EMState α :=
  ps.foldl (fun st p => broadcast p chatId st) s

/-- Total number of occurrences of a queue id across all room
collections of the registry. -/
def registryCount (reg : Registry) (q : Nat) : Nat :=
  (reg.map (fun e => e.2.count q)).sum

/-- The lifespan shutdown handler (src/main.py lines 60-64): for every
chat id in connected_clients, put None (the close sentinel) into every
queue of that chat's list, then clear the dict. -/
def closeAll (s : EMState α) : EMState α :=
  { registry := []
    mailbox := fun x => s.mailbox x ++ List.replicate (registryCount s.registry x) none
    nextQid := s.nextQid }

/-- An item produced on the SSE transport by the event generator: the
initial synthetic connected acknowledgment carrying the chat id, or a
broadcast payload forwarded from the mailbox. -/
inductive SSEEvent (α : Type) where
  | connected (chatId : Nat)
  | payload (p : α)
deriving DecidableEq

/-- The receive loop of event_generator (src/main.py lines 371-375):
repeatedly take the next mailbox item; None breaks the loop, any other
item is yielded.  Applied to the enqueue trace of a queue it gives the
sequence of payload events the loop yields over that trace. -/
def drainLoop : List (Option α) → List (SSEEvent α)
  | [] => []
  | none :: _ => []
  | some m :: rest => SSEEvent.payload m :: drainLoop rest

/-- The full output of event_generator (src/main.py lines 360-375) over
a given enqueue trace of its queue: first the synthetic connected event
carrying the chat id, then the payloads yielded by the receive loop. -/
def eventGenerator (chatId : Nat) (items : List (Option α)) : List (SSEEvent α) :=
  SSEEvent.connected chatId :: drainLoop items

/-- A user row (src/models.py class User): integer primary key and
username.  The password hash plays no role in the fan-out core. -/
structure User where
  id : Nat
  username : String
deriving DecidableEq

/-- Modelled from the spec: the Chat entity is imported by src/main.py
from models but its class is not among the source files; per the spec a
Room is identified by an integer id and owns a membership relation used
by the ingress authorization check (chat.members in send_message).
Members are represented by their user ids. -/
structure Chat where
  id : Nat
  name : String
  members : List Nat
deriving DecidableEq

/-- A message row as persisted by send_message.  Fields id, content,
sender, user_id and timestamp are the columns of src/models.py class
Message (lines 13-19); chat_id and is_anonymous are additionally
assigned by the constructor call in src/main.py lines 312-317 and are
the room reference and anonymity flag the spec lists for the messages
table (modelled from the spec there, the column declarations being
outside src/).  The timestamp is the server clock value at insert time
(models.py default datetime.utcnow), kept as a Nat. -/
structure Message where
  id : Nat
  content : String
  sender : Option String
  user_id : Option Nat
  chat_id : Nat
  is_anonymous : Bool
  timestamp : Nat
deriving DecidableEq

/-- Modelled from the spec: the request schema MessageCreate is imported
from schemas, a file not among the sources; its fields are exactly those
send_message reads: content, chat_id, is_anonymous. -/
structure MessageCreate where
  content : String
  chat_id : Nat
  is_anonymous : Bool
deriving DecidableEq

/-- The broadcast payload dict built in src/main.py lines 322-329:
sender label, content, and the persisted timestamp (isoformat is an
injective rendering, kept as the Nat timestamp). -/
structure BPayload where
  sender : String
  content : String
  timestamp : Nat
deriving DecidableEq

/-- The HTTPException outcomes send_message can raise: 404 not found or
403 forbidden, each with its detail string. -/
inductive HTTPError where
  | notFound (detail : String)
  | forbidden (detail : String)
deriving DecidableEq

/-- The relational store as send_message sees it: the chat rows, the
message rows in insertion order, the next server-assigned message id,
and the server clock used for the inserted timestamp. -/
structure DB where
  chats : List Chat
  messages : List Message
  nextMessageId : Nat
  now : Nat

/-- The query db.query(Chat).filter(Chat.id == chat_id).first(). -/
def chatFind (db : DB) (cid : Nat) : Option Chat :=
  db.chats.find? (fun c => c.id == cid)

/-- The membership check of src/main.py line 296: an authenticated
sender who is not in chat.members is rejected; a guest passes this
check. -/
def isMemberViolation (c : Chat) (u : Option User) : Bool :=
  match u with
  | some usr => ! decide (usr.id ∈ c.members)
  | none => false

/-- The guest check of src/main.py line 300: a guest (no authenticated
identity) may only post to chat id 1. -/
def isGuestViolation (u : Option User) (chatId : Nat) : Bool :=
  u.isNone && ! decide (chatId = 1)

/-- The sender_name expression of src/main.py lines 306-310: the
literal Anonymous if the anonymity flag is set, else the authenticated
identity's username, else the literal Guest. -/
def resolveSender (u : Option User) (anon : Bool) : String :=
  if anon then "Anonymous"
  else match u with
       | some usr => usr.username
       | none => "Guest"

/-- The complete observable outcome of one send_message call: the store
and event-manager state after the call, and either the HTTP error
raised or the persisted row together with the broadcast payload. -/
structure SendOutcome where
  db : DB
  em : EMState BPayload
  result : Except HTTPError (Message × BPayload)

/-- The /send_message endpoint (src/main.py lines 284-331): look up the
chat (404 if absent); reject an authenticated non-member (403) and a
guest posting outside chat 1 (403); otherwise resolve the sender label
(Anonymous if the anonymity flag is set, else the username, else
Guest), insert the message row (the sender column is never assigned and
stays empty; user_id is the author's id or NULL for a guest), then
broadcast the payload built from the sender label, the content and the
persisted timestamp to the chat's subscribers. -/
def sendMessage (db : DB) (currentUser : Option User) (m : MessageCreate)
    (s : EMState BPayload) : SendOutcome :=
  match chatFind db m.chat_id with
  | none => ⟨db, s, .error (.notFound "Chat not found")⟩
  | some chat =>
    if isMemberViolation chat currentUser then
      ⟨db, s, .error (.forbidden "Not a member of this chat")⟩
    else if isGuestViolation currentUser m.chat_id then
      ⟨db, s, .error (.forbidden "Guests can only post in General Chat")⟩
    else
      let senderName : String := resolveSender currentUser m.is_anonymous
      let newMessage : Message :=
        { id := db.nextMessageId
          content := m.content
          sender := none
          user_id := currentUser.map User.id
          chat_id := m.chat_id
          is_anonymous := m.is_anonymous
          timestamp := db.now }
      let payload : BPayload := ⟨senderName, m.content, newMessage.timestamp⟩
      ⟨{ db with messages := db.messages ++ [newMessage]
                 nextMessageId := db.nextMessageId + 1 },
       broadcast payload m.chat_id s,
       .ok (newMessage, payload)⟩

/-- Sample user id 5 who is a member of no chat. -/
def outsiderUser : User := ⟨5, "bob"⟩

/-- Sample authenticated user for concrete instantiations. -/
def demoUser : User := ⟨7, "alice"⟩

/-- Sample open chat, id 1, with demoUser as its only member. -/
def demoChat1 : Chat := ⟨1, "Note", [7]⟩

/-- Sample private chat, id 2, with an empty membership. -/
def demoChat2 : Chat := ⟨2, "Private", []⟩

/-- Sample store holding the two sample chats and no messages. -/
def demoDB : DB := ⟨[demoChat1, demoChat2], [], 1, 100⟩

/-- Every handle id stored anywhere in the registry was allocated by the
fresh counter: it is smaller than nextQid. -/
def HandlesBounded (s : EMState α) : Prop :=
  ∀ r q, q ∈ roomList s r → q < s.nextQid

/-- Each room collection holds any given handle at most once, the
freshness property Python object identity gives the source dictionary. -/
def HandlesUnique (s : EMState α) : Prop :=
  ∀ r q, (roomList s r).count q ≤ 1

/-- States of the event manager reachable from the initial empty
dictionary through the operations of the source: register, disconnect,
broadcast (also as invoked by send_message) and the shutdown handler. -/
inductive Reachable : EMState α → Prop where
  | init : Reachable emInit
  | step_register (chatId : Nat) {s : EMState α} :
      Reachable s → Reachable (register chatId s).1
  | step_disconnect (q chatId : Nat) {s : EMState α} :
      Reachable s → Reachable (disconnect q chatId s)
  | step_broadcast (p : α) (chatId : Nat) {s : EMState α} :
      Reachable s → Reachable (broadcast p chatId s)
  | step_closeAll {s : EMState α} : Reachable s → Reachable (closeAll s)

theorem lookupRoom_setRoom_self {reg : Registry} {r : Nat} {x : List Nat}
    (h : lookupRoom reg r = some x) (qs : List Nat) :
    lookupRoom (setRoom reg r qs) r = some qs := by
  induction reg with
  | nil => cases h
  | cons e t ih =>
    simp only [setRoom, List.map_cons]
    by_cases he : e.1 = r
    · simp [lookupRoom, he]
    · simp only [lookupRoom, he, if_neg, ite_false]
      simp only [lookupRoom, he, ite_false] at h
      exact ih h

theorem lookupRoom_append {reg : Registry} {r : Nat} (h : lookupRoom reg r = none)
    (l2 : Registry) : lookupRoom (reg ++ l2) r = lookupRoom l2 r := by
  induction reg with
  | nil => rfl
  | cons e t ih =>
    simp only [lookupRoom] at h ⊢
    by_cases he : e.1 = r
    · simp [he] at h
    · simp only [he, ite_false] at h ⊢
      exact ih h

theorem lookupRoom_register (chatId : Nat) (s : EMState α) :
    lookupRoom (register chatId s).1.registry chatId =
      some (roomList s chatId ++ [s.nextQid]) := by
  unfold register roomList
  cases h : lookupRoom s.registry chatId with
  | some qs => simp only [h, Option.isSome_some, ite_true, Option.getD_some]
               exact lookupRoom_setRoom_self h _
  | none =>
    have h2 : lookupRoom (s.registry ++ [(chatId, [])]) chatId = some [] := by
      rw [lookupRoom_append h]
      simp [lookupRoom]
    simp only [h, Option.isSome_none, Bool.false_eq_true, ite_false, h2,
      Option.getD_some, Option.getD_none, List.nil_append]
    exact lookupRoom_setRoom_self h2 _

theorem register_mailbox (chatId : Nat) (s : EMState α) :
    (register chatId s).1.mailbox (register chatId s).2 = [] := by
  simp [register]

theorem broadcast_registry (p : α) (r : Nat) (s : EMState α) :
    (broadcast p r s).registry = s.registry := by
  unfold broadcast
  split <;> rfl

theorem broadcast_mailbox (p : α) (r : Nat) (s : EMState α) (x : Nat) :
    (broadcast p r s).mailbox x =
      s.mailbox x ++ List.replicate ((roomList s r).count x) (some p) := by
  unfold broadcast roomList
  cases h : lookupRoom s.registry r with
  | none => simp
  | some qs => simp

theorem broadcastAll_cons (p : α) (ps : List α) (r : Nat) (s : EMState α) :
    broadcastAll (p :: ps) r s = broadcastAll ps r (broadcast p r s) := rfl

theorem broadcastAll_mailbox_single {s : EMState α} {r q : Nat}
    (h : lookupRoom s.registry r = some [q]) (ps : List α) :
    (broadcastAll ps r s).mailbox q = s.mailbox q ++ ps.map some := by
  induction ps generalizing s with
  | nil => simp [broadcastAll]
  | cons p ps ih =>
    rw [broadcastAll_cons, ih (by rw [broadcast_registry]; exact h), broadcast_mailbox]
    simp [roomList, h]

theorem broadcastAll_mailbox_of_not_mem {s : EMState α} {r q : Nat}
    (h : q ∉ roomList s r) (ps : List α) :
    (broadcastAll ps r s).mailbox q = s.mailbox q := by
  induction ps generalizing s with
  | nil => rfl
  | cons p ps ih =>
    have h2 : q ∉ roomList (broadcast p r s) r := by
      unfold roomList
      rw [broadcast_registry]
      exact h
    rw [broadcastAll_cons, ih h2, broadcast_mailbox]
    simp [List.count_eq_zero.mpr h]

theorem disconnect_mailbox (q r : Nat) (s : EMState α) :
    (disconnect q r s).mailbox = s.mailbox := by
  unfold disconnect
  split
  · rfl
  · split <;> rfl

theorem not_mem_roomList_disconnect {s : EMState α} {q r : Nat}
    (h : (roomList s r).count q ≤ 1) :
    q ∉ roomList (disconnect q r s) r := by
  unfold disconnect
  cases hl : lookupRoom s.registry r with
  | none =>
    unfold roomList
    simp [hl]
  | some qs =>
    by_cases hq : q ∈ qs
    · simp only [hq, ite_true]
      unfold roomList
      rw [show ({ s with registry := setRoom s.registry r (qs.erase q) } : EMState α).registry
            = setRoom s.registry r (qs.erase q) from rfl,
          lookupRoom_setRoom_self hl, Option.getD_some]
      have hc1 : qs.count q = 1 := by
        unfold roomList at h
        rw [hl, Option.getD_some] at h
        exact Nat.le_antisymm h (List.count_pos_iff.mpr hq)
      have hc0 : (qs.erase q).count q = 0 := by
        rw [List.count_erase_self, hc1]
      exact List.count_eq_zero.mp hc0
    · simp only [hq, ite_false]
      unfold roomList
      rw [hl, Option.getD_some]
      exact hq

theorem disconnect_of_not_mem {s : EMState α} {q r : Nat} (h : q ∉ roomList s r) :
    disconnect q r s = s := by
  unfold disconnect
  cases hl : lookupRoom s.registry r with
  | none => rfl
  | some qs =>
    have hq : q ∉ qs := by
      unfold roomList at h
      rw [hl, Option.getD_some] at h
      exact h
    simp [hq]

theorem drainLoop_map_some (ps : List α) :
    drainLoop (ps.map some) = ps.map SSEEvent.payload := by
  induction ps with
  | nil => rfl
  | cons p ps ih => simp [drainLoop, ih]

theorem drainLoop_append_of_mem_none {l : List (Option α)} (h : none ∈ l)
    (extra : List (Option α)) : drainLoop (l ++ extra) = drainLoop l := by
  induction l with
  | nil => cases h
  | cons x t ih =>
    cases x with
    | none => rfl
    | some m =>
      have h2 : (none : Option α) ∈ t := by
        rcases List.mem_cons.mp h with h1 | h1
        · cases h1
        · exact h1
      simp [drainLoop, ih h2]

theorem one_le_registryCount {reg : Registry} {r q : Nat} {qs : List Nat}
    (hr : (r, qs) ∈ reg) (hq : q ∈ qs) : 1 ≤ registryCount reg q := by
  unfold registryCount
  have h1 : qs.count q ∈ reg.map (fun e => e.2.count q) :=
    List.mem_map_of_mem _ hr
  calc 1 ≤ qs.count q := List.count_pos_iff.mpr hq
    _ ≤ _ := List.single_le_sum (fun x _ => Nat.zero_le x) _ h1

theorem lookupRoom_setRoom_ne {reg : Registry} {r x : Nat} (qs : List Nat)
    (h : x ≠ r) : lookupRoom (setRoom reg r qs) x = lookupRoom reg x := by
  induction reg with
  | nil => rfl
  | cons e t ih =>
    simp only [setRoom, List.map_cons] at ih ⊢
    by_cases he : e.1 = r
    · simp only [he, ite_true, lookupRoom]
      rw [if_neg (fun hh => h hh.symm), if_neg (fun hh => h hh.symm)]
      exact ih
    · simp only [he, ite_false, lookupRoom]
      by_cases hx : e.1 = x
      · simp [hx]
      · simp only [hx, ite_false]
        exact ih

theorem lookupRoom_append_some {reg : Registry} {r : Nat} {x : List Nat}
    (h : lookupRoom reg r = some x) (l2 : Registry) :
    lookupRoom (reg ++ l2) r = some x := by
  induction reg with
  | nil => cases h
  | cons e t ih =>
    simp only [List.cons_append, lookupRoom] at h ⊢
    by_cases he : e.1 = r
    · simpa [he] using h
    · simp only [he, ite_false] at h ⊢
      exact ih h

theorem register_nextQid (chatId : Nat) (s : EMState α) :
    (register chatId s).1.nextQid = s.nextQid + 1 := rfl

theorem roomList_register_self (chatId : Nat) (s : EMState α) :
    roomList (register chatId s).1 chatId = roomList s chatId ++ [s.nextQid] := by
  unfold roomList
  rw [lookupRoom_register]
  rfl

theorem roomList_register_ne {chatId x : Nat} (h : x ≠ chatId) (s : EMState α) :
    roomList (register chatId s).1 x = roomList s x := by
  unfold register roomList
  cases hl : lookupRoom s.registry chatId with
  | some qs =>
    simp only [hl, Option.isSome_some, ite_true]
    rw [lookupRoom_setRoom_ne _ h]
  | none =>
    simp only [hl, Option.isSome_none, Bool.false_eq_true, ite_false]
    rw [lookupRoom_setRoom_ne _ h]
    cases hx : lookupRoom s.registry x with
    | some v => rw [lookupRoom_append_some hx]
    | none =>
      rw [lookupRoom_append hx]
      simp only [lookupRoom, if_neg (Ne.symm h)]

theorem roomList_disconnect_sublist (q chatId : Nat) (s : EMState α) (r : Nat) :
    List.Sublist (roomList (disconnect q chatId s) r) (roomList s r) := by
  unfold disconnect
  cases hl : lookupRoom s.registry chatId with
  | none => exact List.Sublist.refl _
  | some qs =>
    by_cases hq : q ∈ qs
    · simp only [hq, ite_true]
      by_cases hr : r = chatId
      · subst hr
        show List.Sublist
          ((lookupRoom (setRoom s.registry r (qs.erase q)) r).getD []) (roomList s r)
        rw [lookupRoom_setRoom_self hl]
        unfold roomList
        rw [hl]
        exact List.erase_sublist q qs
      · show List.Sublist
          ((lookupRoom (setRoom s.registry chatId (qs.erase q)) r).getD []) (roomList s r)
        rw [lookupRoom_setRoom_ne _ hr]
        exact List.Sublist.refl _
    · simp only [hq, ite_false]
      exact List.Sublist.refl _

theorem disconnect_nextQid (q chatId : Nat) (s : EMState α) :
    (disconnect q chatId s).nextQid = s.nextQid := by
  unfold disconnect
  split
  · rfl
  · split <;> rfl

theorem broadcast_nextQid (p : α) (chatId : Nat) (s : EMState α) :
    (broadcast p chatId s).nextQid = s.nextQid := by
  unfold broadcast
  split <;> rfl

theorem roomList_broadcast (p : α) (chatId : Nat) (s : EMState α) (r : Nat) :
    roomList (broadcast p chatId s) r = roomList s r := by
  unfold roomList
  rw [broadcast_registry]

theorem roomList_closeAll (s : EMState α) (r : Nat) :
    roomList (closeAll s) r = [] := rfl

theorem reachable_handles {s : EMState α} (h : Reachable s) :
    HandlesBounded s ∧ HandlesUnique s := by
  induction h with
  | init =>
    constructor
    · intro r q hq
      simp [roomList, lookupRoom, emInit] at hq
    · intro r q
      simp [roomList, lookupRoom, emInit]
  | step_register chatId hs ih =>
    rename_i t
    obtain ⟨ihb, ihu⟩ := ih
    constructor
    · intro r q hq
      rw [register_nextQid]
      by_cases hr : r = chatId
      · subst hr
        rw [roomList_register_self] at hq
        rcases List.mem_append.mp hq with h1 | h1
        · exact Nat.lt_succ_of_lt (ihb _ _ h1)
        · rw [List.mem_singleton] at h1
          subst h1
          exact Nat.lt_succ_self _
      · rw [roomList_register_ne hr] at hq
        exact Nat.lt_succ_of_lt (ihb _ _ hq)
    · intro r q
      by_cases hr : r = chatId
      · rw [hr, roomList_register_self, List.count_append]
        rcases eq_or_ne q t.nextQid with hq | hq
        · have h0 : (roomList t chatId).count q = 0 :=
            List.count_eq_zero.mpr (fun hmem => by
              have hlt := ihb _ _ hmem
              rw [hq] at hlt
              exact Nat.lt_irrefl _ hlt)
          rw [h0, hq]
          simp
        · have h1 : ([t.nextQid].count q) = 0 :=
            List.count_eq_zero.mpr (by simp [hq])
          rw [h1, Nat.add_zero]
          exact ihu _ _
      · rw [roomList_register_ne hr]
        exact ihu _ _
  | step_disconnect q chatId hs ih =>
    rename_i t
    obtain ⟨ihb, ihu⟩ := ih
    constructor
    · intro r x hx
      rw [disconnect_nextQid]
      exact ihb r x ((roomList_disconnect_sublist q chatId t r).mem hx)
    · intro r x
      exact le_trans ((roomList_disconnect_sublist q chatId t r).count_le x) (ihu r x)
  | step_broadcast p chatId hs ih =>
    rename_i t
    obtain ⟨ihb, ihu⟩ := ih
    constructor
    · intro r x hx
      rw [broadcast_nextQid]
      rw [roomList_broadcast] at hx
      exact ihb r x hx
    · intro r x
      rw [roomList_broadcast]
      exact ihu r x
  | step_closeAll hs ih =>
    constructor
    · intro r x hx
      rw [roomList_closeAll] at hx
      cases hx
    · intro r x
      rw [roomList_closeAll]
      simp

theorem reachable_handles_unique {s : EMState α} (h : Reachable s) (r q : Nat) :
    (roomList s r).count q ≤ 1 :=
  (reachable_handles h).2 r q

/-- C1: for a room r whose collection holds exactly one subscribed
handle q with an empty mailbox, issuing N broadcast calls with payloads
p1..pN leaves q registered and makes q's live feed yield the connected
acknowledgment followed by exactly those N payloads in the order the
broadcast calls were issued (FIFO within a single handle's mailbox). -/
theorem fifo_per_handle {α : Type} (s : EMState α) (r q : Nat) (ps : List α)
    (hq : lookupRoom s.registry r = some [q]) (hm : s.mailbox q = []) :
    eventGenerator r ((broadcastAll ps r s).mailbox q) =
      SSEEvent.connected r :: ps.map SSEEvent.payload := by
  rw [eventGenerator, broadcastAll_mailbox_single hq, hm, List.nil_append,
    drainLoop_map_some]

/-- Witness for C1 at a concrete input: one handle registered to room 5,
two broadcasts, the feed yields connected then the two payloads in
order. -/
theorem fifo_per_handle_witness :
    lookupRoom (register 5 (emInit : EMState String)).1.registry 5 = some [0] ∧
    (register 5 (emInit : EMState String)).1.mailbox 0 = [] ∧
    eventGenerator 5
        ((broadcastAll ["a", "b"] 5 (register 5 (emInit : EMState String)).1).mailbox 0) =
      SSEEvent.connected 5 :: (["a", "b"].map SSEEvent.payload) :=
  ⟨rfl, rfl, fifo_per_handle (register 5 (emInit : EMState String)).1 5 0 ["a", "b"] rfl rfl⟩

/-- C2: once disconnect has removed handle q from room r's collection
(q occurring at most once there, as handle freshness guarantees), no
subsequent sequence of broadcast calls for r enqueues anything into q's
mailbox: the removed handle never receives another payload. -/
theorem no_use_after_close {α : Type} (s : EMState α) (r q : Nat)
    (h : (roomList s r).count q ≤ 1) (ps : List α) :
    (broadcastAll ps r (disconnect q r s)).mailbox q = s.mailbox q := by
  rw [broadcastAll_mailbox_of_not_mem (not_mem_roomList_disconnect h) ps]
  rw [disconnect_mailbox]

/-- Witness for C2 at a concrete input: the handle registered to room 3
is disconnected; a later broadcast to room 3 leaves its mailbox
unchanged. -/
theorem no_use_after_close_witness :
    (roomList (register 3 (emInit : EMState String)).1 3).count 0 ≤ 1 ∧
    (broadcastAll ["x"] 3 (disconnect 0 3 (register 3 (emInit : EMState String)).1)).mailbox 0 =
      (register 3 (emInit : EMState String)).1.mailbox 0 :=
  ⟨by decide, no_use_after_close (register 3 (emInit : EMState String)).1 3 0 (by decide) ["x"]⟩

/-- C6: on process teardown, closeAll enqueues the close sentinel into
the mailbox of every handle still present in any room collection and
clears the Registry: afterwards the registry is empty, the sentinel is
in each such mailbox, and the receive loop of every previously open
live feed terminates at the sentinel (items enqueued after it are never
yielded). -/
theorem shutdown_closes_all {α : Type} (s : EMState α) (r q : Nat) (qs : List Nat)
    (hr : (r, qs) ∈ s.registry) (hq : q ∈ qs) :
    (closeAll s).registry = [] ∧
    (none : Option α) ∈ (closeAll s).mailbox q ∧
    ∀ extra : List (Option α),
      drainLoop ((closeAll s).mailbox q ++ extra) = drainLoop ((closeAll s).mailbox q) := by
  have hcount : 1 ≤ registryCount s.registry q := one_le_registryCount hr hq
  have hmem : (none : Option α) ∈ (closeAll s).mailbox q := by
    show none ∈ s.mailbox q ++ List.replicate (registryCount s.registry q) none
    exact List.mem_append_right _
      (List.mem_replicate.mpr ⟨Nat.pos_iff_ne_zero.mp hcount, rfl⟩)
  exact ⟨rfl, hmem, fun extra => drainLoop_append_of_mem_none hmem extra⟩

/-- Witness for C6 at a concrete input: one handle subscribed to room 1;
after closeAll the registry is empty and that handle's mailbox holds
the close sentinel. -/
theorem shutdown_closes_all_witness :
    ((1 : Nat), [(0 : Nat)]) ∈ (register 1 (emInit : EMState String)).1.registry ∧
    (0 : Nat) ∈ [(0 : Nat)] ∧
    ((closeAll (register 1 (emInit : EMState String)).1).registry = [] ∧
     (none : Option String) ∈ (closeAll (register 1 (emInit : EMState String)).1).mailbox 0 ∧
     ∀ extra : List (Option String),
       drainLoop ((closeAll (register 1 (emInit : EMState String)).1).mailbox 0 ++ extra) =
         drainLoop ((closeAll (register 1 (emInit : EMState String)).1).mailbox 0)) :=
  ⟨by decide, by decide,
   shutdown_closes_all (register 1 (emInit : EMState String)).1 1 0 [0] (by decide) (by decide)⟩

/-- C7: deregistration is idempotent: with handle q occurring at most
once in room r's collection (as handle freshness guarantees),
disconnecting twice equals disconnecting once, and a disconnect for a
handle absent from the collection (in particular when the room has no
collection) is a no-op that raises no error. -/
theorem deregister_idempotent {α : Type} (s : EMState α) (q r : Nat)
    (h : (roomList s r).count q ≤ 1) :
    disconnect q r (disconnect q r s) = disconnect q r s ∧
    (q ∉ roomList s r → disconnect q r s = s) :=
  ⟨disconnect_of_not_mem (not_mem_roomList_disconnect h),
   fun hnm => disconnect_of_not_mem hnm⟩

/-- Witness for C7 at a concrete input: the single handle of room 2. -/
theorem deregister_idempotent_witness :
    (roomList (register 2 (emInit : EMState String)).1 2).count 0 ≤ 1 ∧
    (disconnect 0 2 (disconnect 0 2 (register 2 (emInit : EMState String)).1) =
       disconnect 0 2 (register 2 (emInit : EMState String)).1 ∧
     ((0 : Nat) ∉ roomList (register 2 (emInit : EMState String)).1 2 →
       disconnect 0 2 (register 2 (emInit : EMState String)).1 =
         (register 2 (emInit : EMState String)).1)) :=
  ⟨by decide, deregister_idempotent (register 2 (emInit : EMState String)).1 0 2 (by decide)⟩

/-- C8: the first item a live-feed connection produces is the synthetic
connected acknowledgment carrying the room id, and right after register
the fresh handle's mailbox is empty, so the acknowledgment is emitted
before any payload from the mailbox is delivered. -/
theorem connected_ack_first {α : Type} (chatId : Nat) (s : EMState α)
    (items : List (Option α)) :
    (eventGenerator chatId items).head? = some (SSEEvent.connected chatId) ∧
    (register chatId s).1.mailbox (register chatId s).2 = [] ∧
    eventGenerator chatId ((register chatId s).1.mailbox (register chatId s).2) =
      [SSEEvent.connected chatId] := by
  refine ⟨rfl, register_mailbox chatId s, ?_⟩
  rw [register_mailbox]
  rfl

/-- C9: opening a live feed performs no room-existence check: for a
chat id with no Chat record at all, register still succeeds, appending
a fresh handle to the (created-if-absent) collection for that id, the
fresh mailbox is empty, and the connection's first produced item is the
connected acknowledgment; subscribing never fails with NotFound. -/
theorem subscribe_never_notFound {α : Type} (db : DB) (chatId : Nat) (s : EMState α)
    (_hne : chatFind db chatId = none) :
    lookupRoom (register chatId s).1.registry chatId =
      some (roomList s chatId ++ [(register chatId s).2]) ∧
    (register chatId s).1.mailbox (register chatId s).2 = [] ∧
    (eventGenerator chatId ((register chatId s).1.mailbox (register chatId s).2)).head? =
      some (SSEEvent.connected chatId) := by
  refine ⟨lookupRoom_register chatId s, register_mailbox chatId s, ?_⟩
  rw [register_mailbox]
  rfl

/-- Witness for C9 at a concrete input: chat id 42 names no chat in the
sample store, yet registration succeeds and the feed opens with the
connected acknowledgment. -/
theorem subscribe_never_notFound_witness :
    chatFind demoDB 42 = none ∧
    (lookupRoom (register 42 (emInit : EMState String)).1.registry 42 =
       some (roomList (emInit : EMState String) 42 ++ [(register 42 (emInit : EMState String)).2]) ∧
     (register 42 (emInit : EMState String)).1.mailbox (register 42 (emInit : EMState String)).2 = [] ∧
     (eventGenerator 42
         ((register 42 (emInit : EMState String)).1.mailbox
           (register 42 (emInit : EMState String)).2)).head? =
       some (SSEEvent.connected 42)) :=
  ⟨by decide, subscribe_never_notFound demoDB 42 (emInit : EMState String) (by decide)⟩

/-- C3: when the target room exists, a send_message call whose sender is
an authenticated identity that is not a member of the room, or a guest
posting to a room other than the open room id 1, fails with Forbidden,
and on that failure the store and the event-manager state are unchanged
(nothing persisted, no broadcast). -/
theorem forbidden_no_side_effect (db : DB) (u : Option User) (m : MessageCreate)
    (s : EMState BPayload) (c : Chat) (hc : chatFind db m.chat_id = some c)
    (hviol : (∃ usr, u = some usr ∧ usr.id ∉ c.members) ∨ (u = none ∧ m.chat_id ≠ 1)) :
    (∃ d, (sendMessage db u m s).result = .error (.forbidden d)) ∧
    (sendMessage db u m s).db = db ∧ (sendMessage db u m s).em = s := by
  rcases hviol with ⟨usr, hu, hnm⟩ | ⟨hu, hne⟩
  · subst hu
    have e : sendMessage db (some usr) m s =
        ⟨db, s, .error (.forbidden "Not a member of this chat")⟩ := by
      unfold sendMessage
      rw [hc]
      simp [isMemberViolation, hnm]
    rw [e]
    exact ⟨⟨"Not a member of this chat", rfl⟩, rfl, rfl⟩
  · subst hu
    have e : sendMessage db none m s =
        ⟨db, s, .error (.forbidden "Guests can only post in General Chat")⟩ := by
      unfold sendMessage
      rw [hc]
      simp [isMemberViolation, isGuestViolation, hne]
    rw [e]
    exact ⟨⟨"Guests can only post in General Chat", rfl⟩, rfl, rfl⟩

/-- Witness for C3 at a concrete input: user id 5 is no member of chat 2
and is rejected with Forbidden, the store and the subscriber state
untouched. -/
theorem forbidden_no_side_effect_witness :
    chatFind demoDB 2 = some demoChat2 ∧
    (some outsiderUser = some outsiderUser ∧ outsiderUser.id ∉ demoChat2.members) ∧
    ((∃ d, (sendMessage demoDB (some outsiderUser) ⟨"x", 2, false⟩ emInit).result =
        .error (.forbidden d)) ∧
     (sendMessage demoDB (some outsiderUser) ⟨"x", 2, false⟩ emInit).db = demoDB ∧
     (sendMessage demoDB (some outsiderUser) ⟨"x", 2, false⟩ emInit).em = emInit) :=
  ⟨by decide, ⟨rfl, by decide⟩,
   forbidden_no_side_effect demoDB (some outsiderUser) ⟨"x", 2, false⟩ emInit demoChat2
     (by decide) (Or.inl ⟨outsiderUser, rfl, by decide⟩)⟩

/-- C4: a send_message call whose room id names no existing room fails
with NotFound carrying the explicit detail string, and the store and the
event-manager state are unchanged (nothing persisted, no broadcast). -/
theorem nonexistent_room_notFound (db : DB) (u : Option User) (m : MessageCreate)
    (s : EMState BPayload) (h : chatFind db m.chat_id = none) :
    (sendMessage db u m s).result = .error (.notFound "Chat not found") ∧
    (sendMessage db u m s).db = db ∧ (sendMessage db u m s).em = s := by
  have e : sendMessage db u m s = ⟨db, s, .error (.notFound "Chat not found")⟩ := by
    unfold sendMessage
    rw [h]
  rw [e]
  exact ⟨rfl, rfl, rfl⟩

/-- Witness for C4 at a concrete input: chat id 3 names no chat in the
sample store, so the post is rejected with the not-found detail and
nothing changes. -/
theorem nonexistent_room_notFound_witness :
    chatFind demoDB 3 = none ∧
    ((sendMessage demoDB (some demoUser) ⟨"hi", 3, false⟩ emInit).result =
       .error (.notFound "Chat not found") ∧
     (sendMessage demoDB (some demoUser) ⟨"hi", 3, false⟩ emInit).db = demoDB ∧
     (sendMessage demoDB (some demoUser) ⟨"hi", 3, false⟩ emInit).em = emInit) :=
  ⟨by decide,
   nonexistent_room_notFound demoDB (some demoUser) ⟨"hi", 3, false⟩ emInit (by decide)⟩

/-- C5 counterexample: a guest posting the content hi to room 1
succeeds, but the persisted row's sender column is left unset (None),
not the label Guest: send_message never writes the resolved sender
label into the store, so the claim's persisted sender label Guest is
false at this input. -/
theorem persisted_sender_label_counterexample :
    (sendMessage demoDB none ⟨"hi", 1, false⟩ (emInit : EMState BPayload)).result.map
        (fun pr => pr.1.sender) = .ok none ∧
    (sendMessage demoDB none ⟨"hi", 1, false⟩ (emInit : EMState BPayload)).result.map
        (fun pr => pr.1.sender) ≠ .ok (some "Guest") := by
  refine ⟨rfl, ?_⟩
  intro h
  have h2 : (Except.ok (none : Option String) : Except HTTPError (Option String)) =
      .ok (some "Guest") := h
  simp at h2

/-- C5 amended: on every authorized send_message call the broadcast
payload's sender label is resolved as the literal Anonymous if the
anonymity flag is set, else the authenticated identity's username, else
Guest, the payload carries the content and the persisted timestamp, the
persisted row is appended to the store with user_id the author's id (or
None for a guest) while its sender column stays unset, and the payload
is enqueued once into the mailbox of every handle currently subscribed
to the room. -/
theorem send_success_sender_resolution (db : DB) (u : Option User) (m : MessageCreate)
    (s : EMState BPayload) (c : Chat) (hc : chatFind db m.chat_id = some c)
    (hmem : ∀ usr, u = some usr → usr.id ∈ c.members)
    (hguest : u = none → m.chat_id = 1) :
    ∃ msg payload, (sendMessage db u m s).result = .ok (msg, payload) ∧
      payload.sender = resolveSender u m.is_anonymous ∧
      payload.content = m.content ∧
      payload.timestamp = db.now ∧
      msg.sender = none ∧
      msg.user_id = u.map User.id ∧
      msg.content = m.content ∧
      (sendMessage db u m s).db.messages = db.messages ++ [msg] ∧
      ∀ q, (sendMessage db u m s).em.mailbox q =
        s.mailbox q ++ List.replicate ((roomList s m.chat_id).count q) (some payload) := by
  have hv1 : isMemberViolation c u = false := by
    cases u with
    | none => rfl
    | some usr => simp [isMemberViolation, hmem usr rfl]
  have hv2 : isGuestViolation u m.chat_id = false := by
    cases u with
    | some usr => rfl
    | none => simp [isGuestViolation, hguest rfl]
  have e : sendMessage db u m s =
      ⟨{ db with
           messages := db.messages ++
             [⟨db.nextMessageId, m.content, none, u.map User.id, m.chat_id,
               m.is_anonymous, db.now⟩]
           nextMessageId := db.nextMessageId + 1 },
       broadcast ⟨resolveSender u m.is_anonymous, m.content, db.now⟩ m.chat_id s,
       .ok (⟨db.nextMessageId, m.content, none, u.map User.id, m.chat_id,
              m.is_anonymous, db.now⟩,
            ⟨resolveSender u m.is_anonymous, m.content, db.now⟩)⟩ := by
    unfold sendMessage
    rw [hc]
    simp [hv1, hv2]
  refine ⟨⟨db.nextMessageId, m.content, none, u.map User.id, m.chat_id,
            m.is_anonymous, db.now⟩,
          ⟨resolveSender u m.is_anonymous, m.content, db.now⟩,
          ?_, rfl, rfl, rfl, rfl, rfl, rfl, ?_, ?_⟩
  · rw [e]
  · rw [e]
  · intro q
    rw [e]
    exact broadcast_mailbox _ m.chat_id s q

/-- Witness for C5 amended at a concrete input: a guest posts hi to
room 1 of the sample store; the call succeeds with broadcast sender
label Guest, the row is appended with no author reference and an unset
sender column, and every current room-1 subscriber receives the
payload. -/
theorem send_success_sender_resolution_witness :
    chatFind demoDB 1 = some demoChat1 ∧
    (∃ msg payload,
      (sendMessage demoDB none ⟨"hi", 1, false⟩ (emInit : EMState BPayload)).result =
        .ok (msg, payload) ∧
      payload.sender = resolveSender none false ∧
      payload.content = "hi" ∧
      payload.timestamp = demoDB.now ∧
      msg.sender = none ∧
      msg.user_id = (none : Option User).map User.id ∧
      msg.content = "hi" ∧
      (sendMessage demoDB none ⟨"hi", 1, false⟩ (emInit : EMState BPayload)).db.messages =
        demoDB.messages ++ [msg] ∧
      ∀ q, (sendMessage demoDB none ⟨"hi", 1, false⟩ (emInit : EMState BPayload)).em.mailbox q =
        (emInit : EMState BPayload).mailbox q ++
          List.replicate ((roomList (emInit : EMState BPayload) 1).count q) (some payload)) :=
  ⟨by decide,
   send_success_sender_resolution demoDB none ⟨"hi", 1, false⟩ emInit demoChat1
     (by decide) (fun usr h => by cases h) (fun _ => rfl)⟩

/-- C10: when an authenticated member posts with the anonymity flag set,
the persisted row still records user_id equal to the author's id while
the broadcast payload's sender label is the literal Anonymous:
anonymity applies only to the displayed label, not to the stored author
reference. -/
theorem anonymity_only_display (db : DB) (usr : User) (m : MessageCreate)
    (s : EMState BPayload) (c : Chat) (hc : chatFind db m.chat_id = some c)
    (hmem : usr.id ∈ c.members) (hanon : m.is_anonymous = true) :
    ∃ msg payload, (sendMessage db (some usr) m s).result = .ok (msg, payload) ∧
      msg.user_id = some usr.id ∧
      payload.sender = "Anonymous" ∧
      (sendMessage db (some usr) m s).db.messages = db.messages ++ [msg] := by
  have hv1 : isMemberViolation c (some usr) = false := by
    simp [isMemberViolation, hmem]
  have e : sendMessage db (some usr) m s =
      ⟨{ db with
           messages := db.messages ++
             [⟨db.nextMessageId, m.content, none, some usr.id, m.chat_id,
               m.is_anonymous, db.now⟩]
           nextMessageId := db.nextMessageId + 1 },
       broadcast ⟨"Anonymous", m.content, db.now⟩ m.chat_id s,
       .ok (⟨db.nextMessageId, m.content, none, some usr.id, m.chat_id,
              m.is_anonymous, db.now⟩,
            ⟨"Anonymous", m.content, db.now⟩)⟩ := by
    unfold sendMessage
    rw [hc]
    simp [hv1, isGuestViolation, hanon, resolveSender]
  refine ⟨⟨db.nextMessageId, m.content, none, some usr.id, m.chat_id,
            m.is_anonymous, db.now⟩,
          ⟨"Anonymous", m.content, db.now⟩, ?_, rfl, rfl, ?_⟩
  · rw [e]
  · rw [e]

/-- Witness for C10 at a concrete input: alice, a member of chat 1,
posts anonymously; the stored row keeps her user id while the broadcast
shows Anonymous. -/
theorem anonymity_only_display_witness :
    chatFind demoDB 1 = some demoChat1 ∧
    demoUser.id ∈ demoChat1.members ∧
    (⟨"secret", 1, true⟩ : MessageCreate).is_anonymous = true ∧
    (∃ msg payload,
      (sendMessage demoDB (some demoUser) ⟨"secret", 1, true⟩ (emInit : EMState BPayload)).result =
        .ok (msg, payload) ∧
      msg.user_id = some demoUser.id ∧
      payload.sender = "Anonymous" ∧
      (sendMessage demoDB (some demoUser) ⟨"secret", 1, true⟩
          (emInit : EMState BPayload)).db.messages = demoDB.messages ++ [msg]) :=
  ⟨by decide, by decide, rfl,
   anonymity_only_display demoDB demoUser ⟨"secret", 1, true⟩ emInit demoChat1
     (by decide) (by decide) rfl⟩

end ChatApp
